import Mathlib

/-!
# Verification of the ITGmania remote-control harness session core

Shallow embedding of `itgmania_harness_poc_test2.py` (the WebSocket harness):

* the frame codec `build_packet` / `parse_packets`,
* payload decoding `payload_to_json` (NUL strip, UTF-8 decode with
  replacement, JSON parse),
* the `ItgSession` state (receive buffer, per-kind response queues, error
  queue, lifecycle flags) with `attach` / `detach` / the receive-loop
  dispatch, and the `request` race engine,
* the `hello_with_retry` bounded-retry handshake.

Bytes are modelled as `Nat` (values < 256 where the Python `bytes` type
guarantees it), byte strings as `List Nat`, wall-clock instants and
durations (`time.perf_counter` seconds) as `ℚ`, and Python `dict`s of
`asyncio.Queue`s as association lists of FIFO lists (front = next item
delivered, back = most recently put).
-/

/-! ## Frame codec (`encode_uint16_be`, `build_packet`, `parse_packets`) -/

/-- `encode_uint16_be(value)`: `bytes([(value >> 8) & 0xFF, value & 0xFF])`. -/
def encode_uint16_be (value : Nat) : List Nat :=
  [(value >>> 8) &&& 0xFF, value &&& 0xFF]

/-- `build_packet(command_id, payload)`:
`encode_uint16_be(1 + len(payload)) + bytes([command_id]) + payload`. -/
def build_packet (command_id : Nat) (payload : List Nat) : List Nat :=
  encode_uint16_be (1 + payload.length) ++ [command_id] ++ payload

/-- One pass of the `while True` loop of `parse_packets`, with explicit fuel
so the function is structurally recursive (each full frame consumes
`total_size = 2 + size ≥ 2` bytes from a buffer of length ≥ 3, so
`fuel = buffer.length` always suffices; see `parse_packets_eq`).
Returns the extracted `(command_id, payload)` pairs and the leftover buffer
(the Python function mutates `buffer` in place and returns the list). -/
def parse_go : Nat → List Nat → List (Nat × List Nat) × List Nat
  | 0, buffer => ([], buffer)
  | fuel + 1, buffer =>
    if buffer.length < 3 then ([], buffer)
    else
      let size := (buffer.getD 0 0 <<< 8) ||| buffer.getD 1 0
      let total_size := 2 + size
      if buffer.length < total_size then ([], buffer)
      else
        let command_id := buffer.getD 2 0
        let payload := if size > 1 then (buffer.drop 3).take (size - 1) else []
        let rest := parse_go fuel (buffer.drop total_size)
        ((command_id, payload) :: rest.1, rest.2)

/-- `parse_packets(buffer)`: the streaming parser.  `buffer[3:total_size]`
is `(buffer.drop 3).take (size - 1)` (its length is `total_size - 3`),
`del buffer[:total_size]` is `buffer.drop total_size`. -/
def parse_packets (buffer : List Nat) : List (Nat × List Nat) × List Nat :=
  parse_go buffer.length buffer

/-- Fuel irrelevance: any fuel at least `buffer.length` gives the same
result, because each loop pass consumes at least 2 bytes of a buffer that
has at least 3. -/
theorem parse_go_fuel (fuel₁ fuel₂ : Nat) (buffer : List Nat)
    (h₁ : buffer.length ≤ fuel₁) (h₂ : buffer.length ≤ fuel₂) :
    parse_go fuel₁ buffer = parse_go fuel₂ buffer := by
  induction fuel₁ using Nat.strong_induction_on generalizing fuel₂ buffer with
  | _ fuel₁ ih =>
    match fuel₁, fuel₂ with
    | 0, 0 => rfl
    | 0, fuel₂ + 1 =>
      have hb : buffer = [] := List.length_eq_zero.mp (Nat.le_zero.mp h₁)
      subst hb
      simp [parse_go]
    | fuel₁ + 1, 0 =>
      have hb : buffer = [] := List.length_eq_zero.mp (Nat.le_zero.mp h₂)
      subst hb
      simp [parse_go]
    | fuel₁ + 1, fuel₂ + 1 =>
      simp only [parse_go]
      split_ifs with h3 hT hp
      · rfl
      · rfl
      all_goals
        have hdrop := List.length_drop
          (2 + ((buffer.getD 0 0 <<< 8) ||| buffer.getD 1 0)) buffer
      all_goals
        rw [ih fuel₁ (Nat.lt_succ_self _) fuel₂
          (buffer.drop (2 + ((buffer.getD 0 0 <<< 8) ||| buffer.getD 1 0)))
          (by omega) (by omega)]

/-- The defining equation of `parse_packets`, in the shape of the Python
loop body: stop if fewer than 3 bytes are buffered, stop (retaining the
buffer) if fewer than `total_size` bytes are buffered, otherwise extract
one frame and continue on the rest. -/
theorem parse_packets_eq (buffer : List Nat) :
    parse_packets buffer =
      if buffer.length < 3 then ([], buffer)
      else
        let size := (buffer.getD 0 0 <<< 8) ||| buffer.getD 1 0
        let total_size := 2 + size
        if buffer.length < total_size then ([], buffer)
        else
          let command_id := buffer.getD 2 0
          let payload := if size > 1 then (buffer.drop 3).take (size - 1) else []
          let rest := parse_packets (buffer.drop total_size)
          ((command_id, payload) :: rest.1, rest.2) := by
  unfold parse_packets
  rcases buffer with _ | ⟨b, bs⟩
  · simp [parse_go]
  · simp only [List.length_cons, parse_go]
    split_ifs with h3 hT hp
    · rfl
    · rfl
    all_goals
      have hdrop := List.length_drop
        (2 + (((b :: bs).getD 0 0 <<< 8) ||| (b :: bs).getD 1 0)) (b :: bs)
    all_goals
      simp only [List.length_cons] at hdrop
    all_goals
      rw [parse_go_fuel bs.length
        ((b :: bs).drop (2 + (((b :: bs).getD 0 0 <<< 8) ||| (b :: bs).getD 1 0))).length
        ((b :: bs).drop (2 + (((b :: bs).getD 0 0 <<< 8) ||| (b :: bs).getD 1 0)))
        (by omega) (Nat.le_refl _)]

/-! ## Codec lemmas -/

/-- Reading back a big-endian 16-bit length: for `size < 2^16`,
`(buffer[0] << 8) | buffer[1]` recovers the value written by
`encode_uint16_be`. -/
theorem be16_roundtrip (s : Nat) (h : s < 65536) :
    ((((s >>> 8) &&& 0xFF) <<< 8) ||| (s &&& 0xFF)) = s := by
  have h255 : (0xFF : Nat) = 2 ^ 8 - 1 := by norm_num
  rw [h255, Nat.and_pow_two_sub_one_eq_mod, Nat.and_pow_two_sub_one_eq_mod,
    Nat.shiftRight_eq_div_pow, Nat.shiftLeft_eq]
  have hdiv : s / 2 ^ 8 < 2 ^ 8 := by
    have : s < 2 ^ 8 * 2 ^ 8 := by norm_num at h ⊢; omega
    exact Nat.div_lt_of_lt_mul this
  rw [Nat.mod_eq_of_lt hdiv]
  have hmod : s % 2 ^ 8 < 2 ^ 8 := Nat.mod_lt _ (by norm_num)
  rw [Nat.mul_comm (s / 2 ^ 8) (2 ^ 8), ← Nat.mul_add_lt_is_or hmod (s / 2 ^ 8)]
  exact Nat.div_add_mod s (2 ^ 8)

/-- Streaming property of `parse_packets`: appending more bytes first
extracts exactly the frames of the old buffer, then continues parsing from
the old leftover followed by the new bytes. -/
theorem parse_packets_append (B X : List Nat) :
    parse_packets (B ++ X) =
      ((parse_packets B).1 ++ (parse_packets ((parse_packets B).2 ++ X)).1,
        (parse_packets ((parse_packets B).2 ++ X)).2) := by
  generalize hn : B.length = n
  induction n using Nat.strong_induction_on generalizing B X with
  | _ n ih =>
    rw [parse_packets_eq B]
    by_cases h3 : B.length < 3
    · simp only [h3, if_true]
      simp
    · simp only [h3, if_false]
      have hget0 : (B ++ X).getD 0 0 = B.getD 0 0 := List.getD_append _ _ _ _ (by omega)
      have hget1 : (B ++ X).getD 1 0 = B.getD 1 0 := List.getD_append _ _ _ _ (by omega)
      have hget2 : (B ++ X).getD 2 0 = B.getD 2 0 := List.getD_append _ _ _ _ (by omega)
      by_cases hT : B.length < 2 + ((B.getD 0 0 <<< 8) ||| B.getD 1 0)
      · -- incomplete frame in B: B is retained whole, nothing changes
        simp only [hT, if_true]
        simp
      · simp only [hT, if_false]
        rw [parse_packets_eq (B ++ X)]
        have hlen : (B ++ X).length = B.length + X.length := List.length_append B X
        have h3' : ¬ (B ++ X).length < 3 := by omega
        simp only [h3', if_false, hget0, hget1, hget2]
        have hT' : ¬ (B ++ X).length < 2 + ((B.getD 0 0 <<< 8) ||| B.getD 1 0) := by omega
        simp only [hT', if_false]
        have hdrop3 : (B ++ X).drop 3 = B.drop 3 ++ X :=
          List.drop_append_of_le_length (by omega)
        have hdropT : (B ++ X).drop (2 + ((B.getD 0 0 <<< 8) ||| B.getD 1 0))
            = B.drop (2 + ((B.getD 0 0 <<< 8) ||| B.getD 1 0)) ++ X :=
          List.drop_append_of_le_length (by omega)
        have htake : ((B.drop 3 ++ X)).take (((B.getD 0 0 <<< 8) ||| B.getD 1 0) - 1)
            = (B.drop 3).take (((B.getD 0 0 <<< 8) ||| B.getD 1 0) - 1) :=
          List.take_append_of_le_length (by simp only [List.length_drop]; omega)
        rw [hdrop3, htake, hdropT]
        have hrec := ih (B.drop (2 + ((B.getD 0 0 <<< 8) ||| B.getD 1 0))).length
          (by simp only [List.length_drop]; omega)
          (B.drop (2 + ((B.getD 0 0 <<< 8) ||| B.getD 1 0))) X rfl
        rw [hrec]
        simp

/-- The leftover returned by `parse_packets` is itself unparseable: running
the parser again on it extracts nothing (it is either shorter than a header
or a strict prefix of its announced frame). -/
theorem parse_packets_leftover (B : List Nat) :
    parse_packets (parse_packets B).2 = ([], (parse_packets B).2) := by
  generalize hn : B.length = n
  induction n using Nat.strong_induction_on generalizing B with
  | _ n ih =>
    rw [parse_packets_eq B]
    by_cases h3 : B.length < 3
    · simp only [h3, if_true]
      rw [parse_packets_eq B]
      simp [h3]
    · simp only [h3, if_false]
      by_cases hT : B.length < 2 + ((B.getD 0 0 <<< 8) ||| B.getD 1 0)
      · simp only [hT, if_true]
        rw [parse_packets_eq B]
        simp only [h3, if_false, hT, if_true]
      · simp only [hT, if_false]
        exact ih (B.drop (2 + ((B.getD 0 0 <<< 8) ||| B.getD 1 0))).length
          (by simp only [List.length_drop]; omega)
          (B.drop (2 + ((B.getD 0 0 <<< 8) ||| B.getD 1 0))) rfl

/-- A frame is well formed when its command id and payload bytes fit in a
byte and the payload length fits the 16-bit length prefix
(`length = 1 + len(payload) ≤ 65535`). -/
def WfFrame (f : Nat × List Nat) : Prop :=
  f.1 < 256 ∧ f.2.length ≤ 65534 ∧ ∀ b ∈ f.2, b < 256

instance (f : Nat × List Nat) : Decidable (WfFrame f) := by
  unfold WfFrame; infer_instance

/-- The concatenated encoding of a list of frames. -/
def encodeAll (fs : List (Nat × List Nat)) : List Nat :=
  (fs.map fun f => build_packet f.1 f.2).flatten

/-- Parsing the encoding of well-formed frames followed by any residue
extracts exactly those frames and then behaves like parsing the residue
alone. -/
theorem parse_packets_encodeAll (fs : List (Nat × List Nat)) (r : List Nat)
    (hwf : ∀ f ∈ fs, WfFrame f) :
    parse_packets (encodeAll fs ++ r) =
      (fs ++ (parse_packets r).1, (parse_packets r).2) := by
  induction fs generalizing r with
  | nil => simp [encodeAll]
  | cons f t iht =>
    obtain ⟨c, p⟩ := f
    have hplen : p.length ≤ 65534 := (hwf _ (List.mem_cons_self _ _)).2.1
    have hs : 1 + p.length < 65536 := by omega
    have henc : encodeAll ((c, p) :: t) ++ r
        = (((1 + p.length) >>> 8) &&& 0xFF) :: ((1 + p.length) &&& 0xFF) :: c ::
            (p ++ (encodeAll t ++ r)) := by
      simp [encodeAll, build_packet, encode_uint16_be]
    rw [henc, parse_packets_eq]
    have hsize : ((((1 + p.length) >>> 8) &&& 0xFF) <<< 8) ||| ((1 + p.length) &&& 0xFF)
        = 1 + p.length := be16_roundtrip _ hs
    simp only [List.getD_cons_zero, List.getD_cons_succ, hsize, List.length_cons]
    have hlapp := List.length_append p (encodeAll t ++ r)
    have h3 : ¬ ((p ++ (encodeAll t ++ r)).length + 1 + 1 + 1 < 3) := by omega
    have hT : ¬ ((p ++ (encodeAll t ++ r)).length + 1 + 1 + 1 < 2 + (1 + p.length)) := by
      omega
    rw [if_neg h3, if_neg hT]
    have hdrop : List.drop (2 + (1 + p.length))
        ((((1 + p.length) >>> 8) &&& 0xFF) :: ((1 + p.length) &&& 0xFF) :: c ::
          (p ++ (encodeAll t ++ r))) = encodeAll t ++ r := by
      have hsplit : (((1 + p.length) >>> 8) &&& 0xFF) :: ((1 + p.length) &&& 0xFF) :: c ::
          (p ++ (encodeAll t ++ r))
          = ((((1 + p.length) >>> 8) &&& 0xFF) :: ((1 + p.length) &&& 0xFF) :: c :: p)
            ++ (encodeAll t ++ r) := by simp
      rw [hsplit]
      exact List.drop_left' (by simp; omega)
    rw [hdrop, iht r (fun f hf => hwf f (List.mem_cons_of_mem _ hf))]
    have hdrop3 : List.drop 3
        ((((1 + p.length) >>> 8) &&& 0xFF) :: ((1 + p.length) &&& 0xFF) :: c ::
          (p ++ (encodeAll t ++ r))) = p ++ (encodeAll t ++ r) := by
      simp
    split_ifs with hp
    · rw [hdrop3, show 1 + p.length - 1 = p.length by omega, List.take_left]
      simp
    · have hp0 : p = [] := List.length_eq_zero.mp (by omega)
      subst hp0
      simp

/-- The per-chunk feeding loop of the receive path: each chunk is appended
to the retained buffer and run through `parse_packets`; the extracted
frames of all calls are concatenated, and the final leftover returned. -/
def feedChunks : List Nat → List (List Nat) → List (Nat × List Nat) × List Nat
  | buf, [] => ([], buf)
  | buf, c :: rest =>
    let pr := parse_packets (buf ++ c)
    let fr := feedChunks pr.2 rest
    (pr.1 ++ fr.1, fr.2)

/-- Feeding chunks one at a time starting from an unparseable buffer gives
exactly the batch parse of the buffer followed by all chunk bytes. -/
theorem feedChunks_eq_parse (cs : List (List Nat)) (buf : List Nat)
    (hbuf : parse_packets buf = ([], buf)) :
    feedChunks buf cs = parse_packets (buf ++ cs.flatten) := by
  induction cs generalizing buf with
  | nil => simp [feedChunks, hbuf]
  | cons c rest ih =>
    simp only [feedChunks, List.flatten_cons]
    rw [← List.append_assoc]
    rw [parse_packets_append (buf ++ c) rest.flatten]
    rw [ih (parse_packets (buf ++ c)).2 (parse_packets_leftover _)]

/-- Parsing an empty buffer yields nothing. -/
theorem parse_packets_nil : parse_packets [] = ([], []) := rfl

/-- A strict prefix of a single well-formed encoded frame parses to nothing
and is retained whole in the buffer (either the header is incomplete, or
the announced `total_size` exceeds the buffered bytes). -/
theorem parse_packets_partial (c : Nat) (p r s : List Nat)
    (hplen : p.length ≤ 65534) (happ : r ++ s = build_packet c p) (hne : s ≠ []) :
    parse_packets r = ([], r) := by
  have hlenb : (build_packet c p).length = 3 + p.length := by
    simp [build_packet, encode_uint16_be]
    omega
  have hlen : r.length + s.length = 3 + p.length := by
    have h := congrArg List.length happ
    simp only [List.length_append] at h
    omega
  have hslen : 0 < s.length := List.length_pos.mpr hne
  rw [parse_packets_eq]
  by_cases h3 : r.length < 3
  · simp [h3]
  · have hg0 : r.getD 0 0 = ((1 + p.length) >>> 8) &&& 0xFF := by
      have h := List.getD_append r s 0 0 (by omega)
      rw [happ] at h
      rw [← h]
      simp [build_packet, encode_uint16_be]
    have hg1 : r.getD 1 0 = (1 + p.length) &&& 0xFF := by
      have h := List.getD_append r s 0 1 (by omega)
      rw [happ] at h
      rw [← h]
      simp [build_packet, encode_uint16_be]
    have hsize : (r.getD 0 0 <<< 8) ||| r.getD 1 0 = 1 + p.length := by
      rw [hg0, hg1]
      exact be16_roundtrip _ (by omega)
    rw [if_neg h3]
    simp only [hsize]
    rw [if_pos (by omega)]

/-! ## Claim theorems: frame codec -/

/-- C1: concatenating the encodings of N well-formed frames and splitting
the bytes at arbitrary boundaries into chunks, each appended to the shared
buffer and run through the streaming decoder `parse_packets`, yields
exactly the same N `(commandId, payload)` pairs in order with nothing lost
or duplicated and an empty final buffer; and a strict prefix of a frame is
retained in the buffer, parsed as nothing, until its remaining bytes
arrive. -/
theorem claim_C1_stream_reassembly (fs : List (Nat × List Nat)) (cs : List (List Nat))
    (hwf : ∀ f ∈ fs, WfFrame f) (hjoin : cs.flatten = encodeAll fs) :
    feedChunks [] cs = (fs, []) ∧
    (∀ (c : Nat) (p r s : List Nat), c < 256 → p.length ≤ 65534 →
      (∀ b ∈ p, b < 256) → r ++ s = build_packet c p → s ≠ [] →
      parse_packets r = ([], r)) := by
  constructor
  · rw [feedChunks_eq_parse cs [] parse_packets_nil]
    simp only [List.nil_append, hjoin]
    have h := parse_packets_encodeAll fs [] hwf
    rw [List.append_nil] at h
    rw [h, parse_packets_nil]
    simp
  · intro c p r s _ hplen _ happ hne
    exact parse_packets_partial c p r s hplen happ hne

/-- Witness for C1: the two frames `(0x01, b"")` and `(0x90, b"\x7B")`
encoded as `[0,1,1] ++ [0,2,144,123]`, delivered in four chunks that split
both frames across chunk boundaries, are reassembled exactly. -/
theorem claim_C1_stream_reassembly_witness :
    feedChunks [] [[0], [1, 1, 0], [2, 144], [123]] = ([(1, []), (144, [123])], []) :=
  (claim_C1_stream_reassembly [(1, []), (144, [123])] [[0], [1, 1, 0], [2, 144], [123]]
    (by decide) (by decide)).1

/-- C2: for every `commandId < 256` and payload of length at most 65534,
decoding the bytes of `build_packet(commandId, payload)` from an otherwise
empty buffer yields exactly that pair and leaves the buffer empty; and
`build_packet(0x01, b"")` is the three bytes `00 01 01`. -/
theorem claim_C2_encode_decode (c : Nat) (p : List Nat)
    (hc : c < 256) (hp : ∀ b ∈ p, b < 256) (hlen : p.length ≤ 65534) :
    parse_packets (build_packet c p) = ([(c, p)], []) ∧
    build_packet 0x01 [] = [0x00, 0x01, 0x01] := by
  refine ⟨?_, by decide⟩
  have h := parse_packets_encodeAll [(c, p)] [] (by
    intro f hf
    simp only [List.mem_singleton] at hf
    subst hf
    exact ⟨hc, hlen, hp⟩)
  rw [parse_packets_nil] at h
  simpa [encodeAll] using h

/-- Witness for C2: `decode(encode(0x90, b"\x7B"))` recovers the pair, and
the HELLO frame encodes to `00 01 01`. -/
theorem claim_C2_encode_decode_witness :
    parse_packets (build_packet 144 [123]) = ([(144, [123])], []) ∧
    build_packet 0x01 [] = [0x00, 0x01, 0x01] :=
  claim_C2_encode_decode 144 [123] (by decide) (by decide) (by decide)

/-! ## Payload decoding (`payload_to_json`)

`payload_to_json` strips one trailing NUL if present, decodes UTF-8 with
`errors="replace"` (total: invalid subsequences become U+FFFD instead of
raising), and parses the text as JSON.  Text is modelled as its list of
Unicode code points; the JSON parser below models the strict RFC 8259
behaviour of `json.loads` (`parse_float`/`parse_int` number distinctions
are kept as the literal's parts; the non-standard `NaN`/`Infinity`
extension of the Python decoder is not modelled — no claim depends on
it). -/

/-- A scalar Unicode code point (what a Python `str` element that UTF-8
encodes to a valid sequence must be). -/
def ValidScalar (c : Nat) : Prop := c < 0x110000 ∧ ¬ (0xD800 ≤ c ∧ c ≤ 0xDFFF)

instance (c : Nat) : Decidable (ValidScalar c) := by
  unfold ValidScalar; infer_instance

/-- UTF-8 encoding of one scalar code point (1–4 bytes). -/
def utf8EncodeChar (c : Nat) : List Nat :=
  if c < 0x80 then [c]
  else if c < 0x800 then [0xC0 + c / 64, 0x80 + c % 64]
  else if c < 0x10000 then [0xE0 + c / 4096, 0x80 + c / 64 % 64, 0x80 + c % 64]
  else [0xF0 + c / 262144, 0x80 + c / 4096 % 64, 0x80 + c / 64 % 64, 0x80 + c % 64]

/-- UTF-8 encoding of a code-point string. -/
def utf8Encode : List Nat → List Nat
  | [] => []
  | c :: r => utf8EncodeChar c ++ utf8Encode r

/-- A UTF-8 continuation byte. -/
def IsCont (b : Nat) : Prop := 0x80 ≤ b ∧ b ≤ 0xBF

instance (b : Nat) : Decidable (IsCont b) := by
  unfold IsCont; infer_instance

/-- Allowed first continuation byte after a 3-byte lead (excludes overlong
forms after `E0` and surrogates after `ED`). -/
def Cont1Ok3 (b b1 : Nat) : Prop :=
  if b = 0xE0 then 0xA0 ≤ b1 ∧ b1 ≤ 0xBF
  else if b = 0xED then 0x80 ≤ b1 ∧ b1 ≤ 0x9F
  else IsCont b1

instance (b b1 : Nat) : Decidable (Cont1Ok3 b b1) := by
  unfold Cont1Ok3; infer_instance

/-- Allowed first continuation byte after a 4-byte lead (excludes overlong
forms after `F0` and planes beyond U+10FFFF after `F4`). -/
def Cont1Ok4 (b b1 : Nat) : Prop :=
  if b = 0xF0 then 0x90 ≤ b1 ∧ b1 ≤ 0xBF
  else if b = 0xF4 then 0x80 ≤ b1 ∧ b1 ≤ 0x8F
  else IsCont b1

instance (b b1 : Nat) : Decidable (Cont1Ok4 b b1) := by
  unfold Cont1Ok4; infer_instance


/-- One fuel-indexed pass of UTF-8 decoding with `errors="replace"`: an
ASCII byte passes through, a valid multi-byte sequence is combined into
its code point, and each maximal invalid subsequence becomes one U+FFFD
(`0xFFFD`), per the CPython replacement policy.  The fuel only makes the
recursion structural: every step consumes at least one byte, so
`fuel = length` (used by `utf8DecodeReplace`) never runs out. -/
def utf8go : Nat → List Nat → List Nat
  | _, [] => []
  | 0, _ :: _ => []
  | fuel + 1, b :: r =>
    if b < 0x80 then b :: utf8go fuel r
    else if 0xC2 ≤ b ∧ b ≤ 0xDF then
      match r with
      | [] => [0xFFFD]
      | b1 :: r1 =>
        if IsCont b1 then ((b - 0xC0) * 64 + (b1 - 0x80)) :: utf8go fuel r1
        else 0xFFFD :: utf8go fuel (b1 :: r1)
    else if 0xE0 ≤ b ∧ b ≤ 0xEF then
      match r with
      | [] => [0xFFFD]
      | b1 :: r1 =>
        if Cont1Ok3 b b1 then
          match r1 with
          | [] => [0xFFFD]
          | b2 :: r2 =>
            if IsCont b2 then
              ((b - 0xE0) * 4096 + (b1 - 0x80) * 64 + (b2 - 0x80)) :: utf8go fuel r2
            else 0xFFFD :: utf8go fuel (b2 :: r2)
        else 0xFFFD :: utf8go fuel (b1 :: r1)
    else if 0xF0 ≤ b ∧ b ≤ 0xF4 then
      match r with
      | [] => [0xFFFD]
      | b1 :: r1 =>
        if Cont1Ok4 b b1 then
          match r1 with
          | [] => [0xFFFD]
          | b2 :: r2 =>
            if IsCont b2 then
              match r2 with
              | [] => [0xFFFD]
              | b3 :: r3 =>
                if IsCont b3 then
                  ((b - 0xF0) * 262144 + (b1 - 0x80) * 4096 + (b2 - 0x80) * 64 + (b3 - 0x80))
                    :: utf8go fuel r3
                else 0xFFFD :: utf8go fuel (b3 :: r3)
            else 0xFFFD :: utf8go fuel (b2 :: r2)
        else 0xFFFD :: utf8go fuel (b1 :: r1)
    else 0xFFFD :: utf8go fuel r

/-- `bytes.decode("utf-8", errors="replace")`: total, never raises. -/
def utf8DecodeReplace (bs : List Nat) : List Nat :=
  utf8go bs.length bs

set_option maxRecDepth 8000

/-- Decoding inverts encoding on strings of valid scalar code points, for
any sufficient fuel. -/
theorem utf8go_encode (s : List Nat) (h : ∀ c ∈ s, ValidScalar c) :
    ∀ fuel, (utf8Encode s).length ≤ fuel → utf8go fuel (utf8Encode s) = s := by
  induction s with
  | nil =>
    intro fuel _
    cases fuel <;> rfl
  | cons c t ih =>
    intro fuel hf
    have hc : ValidScalar c := h c (List.mem_cons_self _ _)
    have ht := ih (fun x hx => h x (List.mem_cons_of_mem _ hx))
    obtain ⟨hlt, hsur⟩ := hc
    have hlen : (utf8Encode (c :: t)).length
        = (utf8EncodeChar c).length + (utf8Encode t).length := by
      rw [utf8Encode]
      exact List.length_append _ _
    have hchar_pos : 1 ≤ (utf8EncodeChar c).length := by
      unfold utf8EncodeChar
      split_ifs <;> simp
    cases fuel with
    | zero => omega
    | succ f =>
      rw [utf8Encode]
      by_cases h1 : c < 0x80
      · have hcl : (utf8EncodeChar c).length = 1 := by
          simp [utf8EncodeChar, if_pos h1]
        simp only [utf8EncodeChar, if_pos h1, List.cons_append, List.nil_append]
        simp only [utf8go]
        rw [if_pos h1, ht f (by omega)]
      · by_cases h2 : c < 0x800
        · have hcl : (utf8EncodeChar c).length = 2 := by
            simp [utf8EncodeChar, if_neg h1, if_pos h2]
          simp only [utf8EncodeChar, if_neg h1, if_pos h2, List.cons_append,
            List.nil_append]
          simp only [utf8go]
          rw [if_neg (by omega), if_pos (by constructor <;> omega),
            if_pos (show IsCont (0x80 + c % 64) by constructor <;> omega)]
          rw [ht f (by omega)]
          congr 1
          omega
        · by_cases h3 : c < 0x10000
          · have hcl : (utf8EncodeChar c).length = 3 := by
              simp [utf8EncodeChar, if_neg h1, if_neg h2, if_pos h3]
            simp only [utf8EncodeChar, if_neg h1, if_neg h2, if_pos h3,
              List.cons_append, List.nil_append]
            simp only [utf8go]
            have hcont1 : Cont1Ok3 (0xE0 + c / 4096) (0x80 + c / 64 % 64) := by
              unfold Cont1Ok3 IsCont
              split_ifs with he0 hed
              · constructor <;> omega
              · constructor <;> omega
              · constructor <;> omega
            rw [if_neg (by omega), if_neg (by omega),
              if_pos (by constructor <;> omega), if_pos hcont1,
              if_pos (show IsCont (0x80 + c % 64) by constructor <;> omega)]
            rw [ht f (by omega)]
            congr 1
            omega
          · have hcl : (utf8EncodeChar c).length = 4 := by
              simp [utf8EncodeChar, if_neg h1, if_neg h2, if_neg h3]
            simp only [utf8EncodeChar, if_neg h1, if_neg h2, if_neg h3,
              List.cons_append, List.nil_append]
            simp only [utf8go]
            have hcont1 : Cont1Ok4 (0xF0 + c / 262144) (0x80 + c / 4096 % 64) := by
              unfold Cont1Ok4 IsCont
              split_ifs with hf0 hf4
              · constructor <;> omega
              · constructor <;> omega
              · constructor <;> omega
            rw [if_neg (by omega), if_neg (by omega), if_neg (by omega),
              if_pos (by constructor <;> omega), if_pos hcont1,
              if_pos (show IsCont (0x80 + c / 64 % 64) by constructor <;> omega),
              if_pos (show IsCont (0x80 + c % 64) by constructor <;> omega)]
            rw [ht f (by omega)]
            congr 1
            omega

/-- Decoding inverts encoding on strings of valid scalar code points. -/
theorem utf8_decode_encode (s : List Nat) (h : ∀ c ∈ s, ValidScalar c) :
    utf8DecodeReplace (utf8Encode s) = s :=
  utf8go_encode s h _ (Nat.le_refl _)

/-! ## JSON values and `json.loads`

JSON text is a list of Unicode code points; values model what `json.loads`
returns.  A number literal is kept as its parts (integer part with sign,
fraction digits, signed exponent), which keeps the `int`/`float`
distinction of the Python decoder without modelling floats. -/

/-- A decoded JSON value. -/
inductive Json where
  | null
  | bool (b : Bool)
  | num (intPart : Int) (fracDigits : List Nat) (exponent : Int)
  | str (chars : List Nat)
  | arr (items : List Json)
  | obj (fields : List (List Nat × Json))

/-- JSON whitespace (space, tab, line feed, carriage return). -/
def isJsonWs (c : Nat) : Bool := c == 32 || c == 9 || c == 10 || c == 13

/-- Skip leading whitespace. -/
def skipWs : List Nat → List Nat
  | [] => []
  | c :: r => if isJsonWs c then skipWs r else c :: r

/-- ASCII decimal digit. -/
def isDigit (c : Nat) : Bool := 48 ≤ c && c ≤ 57

/-- Hexadecimal digit value, if any. -/
def hexVal (c : Nat) : Option Nat :=
  if 48 ≤ c && c ≤ 57 then some (c - 48)
  else if 97 ≤ c && c ≤ 102 then some (c - 87)
  else if 65 ≤ c && c ≤ 70 then some (c - 55)
  else none

/-- Value of four hex digits. -/
def hex4 (a b c d : Nat) : Option Nat := do
  let va ← hexVal a
  let vb ← hexVal b
  let vc ← hexVal c
  let vd ← hexVal d
  pure (va * 4096 + vb * 256 + vc * 16 + vd)

/-- Longest prefix of decimal digits, as digit values, plus the rest. -/
def spanDigits : List Nat → List Nat × List Nat
  | [] => ([], [])
  | c :: r =>
    if isDigit c then
      let sr := spanDigits r
      ((c - 48) :: sr.1, sr.2)
    else ([], c :: r)

/-- Numeric value of a digit list. -/
def natOfDigits (ds : List Nat) : Nat := ds.foldl (fun a d => a * 10 + d) 0

/-- Body of a JSON string literal after the opening quote: consumes up to
and including the closing quote, handling the escapes of `json.loads`
(including `\uXXXX` with surrogate-pair combination; an unpaired escaped
surrogate stays as a lone code point, as in Python).  Unescaped control
characters are rejected (the strict default).  The fuel only makes the
recursion structural; every step consumes at least one character, so
`fuel = length` (used by `parseStringChars`) never runs out. -/
def parseStringGo : Nat → List Nat → Option (List Nat × List Nat)
  | 0, _ => none
  | _ + 1, [] => none
  | fuel + 1, cs =>
    match cs with
    | [] => none
    | 34 :: r => some ([], r)
    | 92 :: 117 :: a :: b :: c :: d :: r =>
      match hex4 a b c d with
      | none => none
      | some hi =>
        if 0xD800 ≤ hi ∧ hi ≤ 0xDBFF then
          match r with
          | 92 :: 117 :: a2 :: b2 :: c2 :: d2 :: r2 =>
            match hex4 a2 b2 c2 d2 with
            | some lo =>
              if 0xDC00 ≤ lo ∧ lo ≤ 0xDFFF then
                (parseStringGo fuel r2).map fun pr =>
                  ((0x10000 + (hi - 0xD800) * 1024 + (lo - 0xDC00)) :: pr.1, pr.2)
              else (parseStringGo fuel r).map fun pr => (hi :: pr.1, pr.2)
            | none => (parseStringGo fuel r).map fun pr => (hi :: pr.1, pr.2)
          | _ => (parseStringGo fuel r).map fun pr => (hi :: pr.1, pr.2)
        else (parseStringGo fuel r).map fun pr => (hi :: pr.1, pr.2)
    | 92 :: e :: r =>
      match e with
      | 34 => (parseStringGo fuel r).map fun pr => (34 :: pr.1, pr.2)
      | 92 => (parseStringGo fuel r).map fun pr => (92 :: pr.1, pr.2)
      | 47 => (parseStringGo fuel r).map fun pr => (47 :: pr.1, pr.2)
      | 98 => (parseStringGo fuel r).map fun pr => (8 :: pr.1, pr.2)
      | 102 => (parseStringGo fuel r).map fun pr => (12 :: pr.1, pr.2)
      | 110 => (parseStringGo fuel r).map fun pr => (10 :: pr.1, pr.2)
      | 114 => (parseStringGo fuel r).map fun pr => (13 :: pr.1, pr.2)
      | 116 => (parseStringGo fuel r).map fun pr => (9 :: pr.1, pr.2)
      | _ => none
    | c :: r =>
      if c < 32 then none
      else (parseStringGo fuel r).map fun pr => (c :: pr.1, pr.2)

/-- String-literal body parser (see `parseStringGo`). -/
def parseStringChars (cs : List Nat) : Option (List Nat × List Nat) :=
  parseStringGo cs.length cs

/-- Optional exponent part (`e`/`E`, optional sign, at least one digit). -/
def parseExpPart (cs : List Nat) : Option (Int × List Nat) :=
  match cs with
  | e :: r =>
    if e = 101 ∨ e = 69 then
      let sr :=
        match r with
        | 43 :: rr => ((1 : Int), rr)
        | 45 :: rr => ((-1 : Int), rr)
        | _ => ((1 : Int), r)
      let sd := spanDigits sr.2
      if sd.1 = [] then none else some (sr.1 * (natOfDigits sd.1 : Int), sd.2)
    else some (0, cs)
  | [] => some (0, [])

/-- A JSON number literal: optional minus, `0` or a nonzero-led digit run,
optional fraction (at least one digit), optional exponent. -/
def parseNumber (cs : List Nat) : Option (Json × List Nat) :=
  let sn :=
    match cs with
    | 45 :: r => (true, r)
    | _ => (false, cs)
  match sn.2 with
  | [] => none
  | c :: r =>
    if ¬ isDigit c then none
    else
      let ids :=
        if c = 48 then (([0] : List Nat), r)
        else
          let sr := spanDigits r
          ((c - 48) :: sr.1, sr.2)
      let fr :=
        match ids.2 with
        | 46 :: r2 =>
          let sd := spanDigits r2
          if sd.1 = [] then none else some (sd.1, sd.2)
        | _ => some ([], ids.2)
      match fr with
      | none => none
      | some (frac, rest2) =>
        match parseExpPart rest2 with
        | none => none
        | some (ex, rest3) =>
          let iv : Int := (natOfDigits ids.1 : Int)
          some (.num (if sn.1 then -iv else iv) frac ex, rest3)

/-! Recursive-descent JSON value parser, fueled for structural recursion
(the fuel bounds nesting depth; `json_loads` supplies `length + 1`, ample
since each nesting level consumes at least one character). -/

mutual

/-- Parse one JSON value. -/
def parseValue : Nat → List Nat → Option (Json × List Nat)
  | 0, _ => none
  | fuel + 1, cs =>
    match skipWs cs with
    | [] => none
    | c :: r =>
      if c = 110 then
        match r with
        | 117 :: 108 :: 108 :: r2 => some (.null, r2)
        | _ => none
      else if c = 116 then
        match r with
        | 114 :: 117 :: 101 :: r2 => some (.bool true, r2)
        | _ => none
      else if c = 102 then
        match r with
        | 97 :: 108 :: 115 :: 101 :: r2 => some (.bool false, r2)
        | _ => none
      else if c = 34 then
        (parseStringChars r).map fun pr => (.str pr.1, pr.2)
      else if c = 91 then
        match skipWs r with
        | 93 :: r2 => some (.arr [], r2)
        | r2 => parseArrayItems fuel r2 []
      else if c = 123 then
        match skipWs r with
        | 125 :: r2 => some (.obj [], r2)
        | r2 => parseObjItems fuel r2 []
      else if c = 45 ∨ isDigit c then parseNumber (c :: r)
      else none

/-- Parse the comma-separated items of a nonempty array, after `[`. -/
def parseArrayItems : Nat → List Nat → List Json → Option (Json × List Nat)
  | 0, _, _ => none
  | fuel + 1, cs, acc =>
    match parseValue fuel cs with
    | none => none
    | some (v, rest) =>
      match skipWs rest with
      | 44 :: r2 => parseArrayItems fuel r2 (acc ++ [v])
      | 93 :: r2 => some (.arr (acc ++ [v]), r2)
      | _ => none

/-- Parse the comma-separated members of a nonempty object, after `{`. -/
def parseObjItems : Nat → List Nat → List (List Nat × Json) → Option (Json × List Nat)
  | 0, _, _ => none
  | fuel + 1, cs, acc =>
    match skipWs cs with
    | 34 :: r =>
      match parseStringChars r with
      | none => none
      | some (key, r2) =>
        match skipWs r2 with
        | 58 :: r3 =>
          match parseValue fuel r3 with
          | none => none
          | some (v, rest) =>
            match skipWs rest with
            | 44 :: r4 => parseObjItems fuel r4 (acc ++ [(key, v)])
            | 125 :: r4 => some (.obj (acc ++ [(key, v)]), r4)
            | _ => none
        | _ => none
    | _ => none

end

/-- `json.loads(text)`: parse one JSON value and require only whitespace
after it, else fail (`Extra data`). -/
def json_loads (text : List Nat) : Option Json :=
  match parseValue (text.length + 1) text with
  | some (v, rest) => if skipWs rest = [] then some v else none
  | none => none

/-- `payload.endswith(b"\x00")`, then `payload[:-1]`. -/
def stripTrailingNul (payload : List Nat) : List Nat :=
  if payload.getLast? = some 0 then payload.dropLast else payload

/-- `payload_to_json(payload)`: strip one trailing NUL if present, decode
UTF-8 with replacement, parse JSON; `none` models the `json.loads`
exception. -/
def payload_to_json (payload : List Nat) : Option Json :=
  json_loads (utf8DecodeReplace (stripTrailingNul payload))

/-! ## Claim theorem: payload decoding -/

/-- C9: `payload_to_json` strips at most one trailing NUL byte, never
fails on malformed UTF-8 (decoding is total, with replacement), and can
only fail when the decoded text is not valid JSON; in particular, for
every payload whose bytes after the optional trailing NUL are the UTF-8
encoding of a valid JSON text, it returns the parsed JSON value. -/
theorem claim_C9_payload_decoding (p s : List Nat) (v : Json)
    (hstrip : stripTrailingNul p = utf8Encode s)
    (hvalid : ∀ c ∈ s, ValidScalar c)
    (hjson : json_loads s = some v) :
    payload_to_json p = some v ∧
    (∀ q : List Nat, stripTrailingNul q = q ∨
      ∃ q', q = q' ++ [0] ∧ stripTrailingNul q = q') ∧
    (∀ q : List Nat, (payload_to_json q).isSome = true ∨
      json_loads (utf8DecodeReplace (stripTrailingNul q)) = none) := by
  refine ⟨?_, ?_, ?_⟩
  · rw [payload_to_json, hstrip, utf8_decode_encode s hvalid, hjson]
  · intro q
    by_cases hq : q.getLast? = some 0
    · right
      have hne : q ≠ [] := by
        intro h
        subst h
        simp at hq
      have hlast : q.getLast hne = 0 := by
        have h := List.getLast?_eq_getLast q hne
        rw [h] at hq
        exact Option.some.inj hq
      refine ⟨q.dropLast, ?_, ?_⟩
      · rw [← hlast]
        exact (List.dropLast_append_getLast hne).symm
      · simp [stripTrailingNul, hq]
    · left
      simp [stripTrailingNul, hq]
  · intro q
    cases h : json_loads (utf8DecodeReplace (stripTrailingNul q)) with
    | none => exact Or.inr rfl
    | some w =>
      left
      unfold payload_to_json
      rw [h]
      rfl

/-- Witness for C9: the payload `7B 7D 00` (`"{}"` plus one trailing NUL)
decodes to the empty JSON object. -/
theorem claim_C9_payload_decoding_witness :
    payload_to_json [123, 125, 0] = some (.obj []) :=
  (claim_C9_payload_decoding [123, 125, 0] [123, 125] (.obj [])
    rfl (by decide) rfl).1

/-! ## Session state and receive-loop dispatch (`ItgSession`)

The Python session owns a transport handle (`websocket`), a receive
buffer, two `asyncio.Event` flags, a dict of per-response-kind
`asyncio.Queue`s and one error queue.  Queues are modelled by their
contents (front = next `get`, back = latest `put`), the dict by an
association list, and the transport handle by an `Option Nat` id.  A
ghost `sent` trace records the byte strings passed to
`websocket.send`. -/

/-- Outbound command ids. -/
def CMD_HELLO : Nat := 0x01

/-- Inbound response kinds. -/
def RSP_HELLO : Nat := 0x81

/-- The reserved out-of-band error response kind. -/
def RSP_ERROR : Nat := 0xFF

/-- Look a key up in an association-list dict (`dict.get`). -/
def qGet (qs : List (Nat × List (List Nat))) (k : Nat) : Option (List (List Nat)) :=
  match qs with
  | [] => none
  | (k', v) :: t => if k' = k then some v else qGet t k

/-- Set a key in an association-list dict (`dict[k] = v`). -/
def qSet (qs : List (Nat × List (List Nat))) (k : Nat) (v : List (List Nat)) :
    List (Nat × List (List Nat)) :=
  match qs with
  | [] => [(k, v)]
  | (k', v') :: t => if k' = k then (k, v) :: t else (k', v') :: qSet t k v

/-- The contents of the queue stored at `k` (empty if absent). -/
def qContents (qs : List (Nat × List (List Nat))) (k : Nat) : List (List Nat) :=
  (qGet qs k).getD []

/-- The mutable state of `ItgSession`. -/
structure SessionState where
  websocket : Option Nat
  rx_buffer : List Nat
  connected_event : Bool
  ready_event : Bool
  response_queues : List (Nat × List (List Nat))
  error_queue : List (List Nat)
  sent : List (List Nat)
deriving DecidableEq

/-- `ItgSession.attach(websocket)`. -/
def attach (st : SessionState) (websocket : Nat) : SessionState :=
  { st with
    websocket := some websocket
    rx_buffer := []
    connected_event := true
    ready_event := false
    response_queues := []
    error_queue := [] }

/-- `ItgSession.detach()`. -/
def detach (st : SessionState) : SessionState :=
  { st with
    websocket := none
    connected_event := false
    ready_event := false }

/-- `ItgSession._get_response_queue(response_id)`: return the queue for
`response_id`, creating and storing an empty one on first use. -/
def get_response_queue (st : SessionState) (response_id : Nat) :
    List (List Nat) × SessionState :=
  match qGet st.response_queues response_id with
  | some queue => (queue, st)
  | none => ([], { st with response_queues := qSet st.response_queues response_id [] })

/-- The body of the receive loop for one decoded frame: an `RSP_ERROR`
frame's payload is put on the error queue, any other frame's payload on
the (lazily created) queue keyed by its command id. -/
def dispatch_packet (st : SessionState) (command_id : Nat) (payload : List Nat) :
    SessionState :=
  if command_id = RSP_ERROR then
    { st with error_queue := st.error_queue ++ [payload] }
  else
    let gq := get_response_queue st command_id
    { gq.2 with response_queues := qSet gq.2.response_queues command_id (gq.1 ++ [payload]) }

/-- The receive loop's handling of one inbound binary message: extend the
shared buffer, run `parse_packets` (which retains any partial frame), and
dispatch each decoded frame in order. -/
def handle_binary (st : SessionState) (message : List Nat) : SessionState :=
  let pr := parse_packets (st.rx_buffer ++ message)
  pr.1.foldl (fun s f => dispatch_packet s f.1 f.2) { st with rx_buffer := pr.2 }

/-- Several inbound binary messages in order. -/
def recvMany (st : SessionState) (messages : List (List Nat)) : SessionState :=
  messages.foldl handle_binary st

/-! ## The request engine (`ItgSession.request`)

`request` checks the transport, sends the request frame, captures the
expected-response queue (creating it if needed) and races "next expected
item" against "next error item" under the deadline
`end_time = now + timeout_seconds`, with each `asyncio.wait` window lasting
`remaining = max(0.1, end_time - now)`.

The embedding fixes the event-loop schedule explicitly: the caller
supplies the timed inbound binary deliveries (`arrivals`, in time order)
that the receive loop processes during the wait.  Two facts about the
Python loop shape justify a single-window model: a completed task makes
the iteration return or raise, and an empty `asyncio.wait` result only
happens when the full `remaining` elapsed, after which
`time.perf_counter() < end_time` is false (the clock has passed
`now + remaining ≥ end_time`), so the `while` body runs at most once to
completion plus the final deadline check.

When both queues hold an item at the same wake-up, both `get` tasks
complete and CPython keeps `next(iter(done))` — an unordered choice — and
drops the other task's result.  The model fixes that nondeterminism by
keeping the error result and dropping the popped expected item; no claim
theorem depends on this configuration. -/

/-- The outcome of `ItgSession.request`: `notConnected` is the
`RuntimeError("Not connected")`, `timeout` the `TimeoutError`,
`remoteError` the `RuntimeError("ITG RSP_ERROR: ...")` carrying the
decoded error payload, `decodeError` a `json.JSONDecodeError` escaping
from `payload_to_json`, and `success` the decoded return value. -/
inductive ReqOutcome where
  | notConnected
  | timeout
  | remoteError (err : Json)
  | decodeError
  | success (val : Json)

/-- Outcome of winning the race on the error queue (lines 210–212). -/
def errOutcome (payload : List Nat) : ReqOutcome :=
  match payload_to_json payload with
  | some j => .remoteError j
  | none => .decodeError

/-- Outcome of winning the race on the expected queue (line 214). -/
def okOutcome (payload : List Nat) : ReqOutcome :=
  match payload_to_json payload with
  | some j => .success j
  | none => .decodeError

/-- Resolution of one `asyncio.wait` wake-up from the current queue
contents: the winner pops one item from the front of its queue; if both
queues are non-empty both getters pop and the expected item is dropped
(see the section comment). -/
def tryResolve (st : SessionState) (expected_response_id : Nat) :
    Option (ReqOutcome × SessionState) :=
  match st.error_queue, qContents st.response_queues expected_response_id with
  | e :: erest, _ :: vrest =>
    some (errOutcome e,
      { st with
        error_queue := erest
        response_queues := qSet st.response_queues expected_response_id vrest })
  | e :: erest, [] => some (errOutcome e, { st with error_queue := erest })
  | [], v :: vrest =>
    some (okOutcome v,
      { st with response_queues := qSet st.response_queues expected_response_id vrest })
  | [], [] => none

/-- Scan the timed arrivals inside one wait window ending at `wEnd`: each
arrival at or before `wEnd` is processed by the receive loop
(`handle_binary`), and the race resolves at the first arrival that makes
the expected or error queue non-empty.  Returns the resolution (with its
time) if any, the state after all processed messages, and the unprocessed
arrivals. -/
def scanArrivals (expected_response_id : Nat) (wEnd : ℚ) :
    SessionState → List (ℚ × List Nat) →
      Option (ReqOutcome × ℚ) × SessionState × List (ℚ × List Nat)
  | st, [] => (none, st, [])
  | st, (t, message) :: rest =>
    if t ≤ wEnd then
      let st' := handle_binary st message
      match tryResolve st' expected_response_id with
      | some (out, st'') => (some (out, t), st'', rest)
      | none => scanArrivals expected_response_id wEnd st' rest
    else (none, st, (t, message) :: rest)

/-- The single race round of the wait loop, from the state after the send:
items already queued resolve at once (at clock value `now`); otherwise the
arrivals up to the window end `wEnd` are scanned; if nothing resolves the
window expires at `wEnd ≥ end_time` and the loop exits into `Timeout`. -/
def raceOnce (st : SessionState) (expected_response_id : Nat) (now wEnd : ℚ)
    (arrivals : List (ℚ × List Nat)) :
    ReqOutcome × ℚ × SessionState × List (ℚ × List Nat) :=
  match tryResolve st expected_response_id with
  | some (out, st3) => (out, now, st3, arrivals)
  | none =>
    match scanArrivals expected_response_id wEnd st arrivals with
    | (some (out, t), st3, rest) => (out, t, st3, rest)
    | (none, st3, rest) => (.timeout, wEnd, st3, rest)

/-- `ItgSession.request(command_id, expected_response_id, payload,
timeout_seconds)` starting at clock value `now`, with the inbound
deliveries `arrivals` (time-ordered, all at or after `now`) available
during the wait.  Returns the outcome, the clock value at which `request`
returns or raises, the session state it leaves, and the arrivals the
receive loop has not yet consumed when it returns. -/
def request (st : SessionState) (command_id expected_response_id : Nat)
    (payload : List Nat) (timeout_seconds now : ℚ)
    (arrivals : List (ℚ × List Nat)) :
    ReqOutcome × ℚ × SessionState × List (ℚ × List Nat) :=
  if st.websocket = none then (.notConnected, now, st, arrivals)
  else
    let st1 := { st with sent := st.sent ++ [build_packet command_id payload] }
    let st2 := (get_response_queue st1 expected_response_id).2
    let end_time := now + timeout_seconds
    if now < end_time then
      let remaining := max (1 / 10 : ℚ) (end_time - now)
      raceOnce st2 expected_response_id now (now + remaining) arrivals
    else (.timeout, now, st2, arrivals)

/-! ## Dictionary and dispatch lemmas -/

/-- Setting then reading the same key. -/
theorem qGet_qSet_self (qs : List (Nat × List (List Nat))) (k : Nat)
    (v : List (List Nat)) : qGet (qSet qs k v) k = some v := by
  induction qs with
  | nil => simp [qSet, qGet]
  | cons h t ih =>
    obtain ⟨k', v'⟩ := h
    by_cases hk : k' = k
    · simp [qSet, hk, qGet]
    · simp [qSet, hk, qGet, ih]

/-- Setting one key leaves other keys unchanged. -/
theorem qGet_qSet_ne (qs : List (Nat × List (List Nat))) (k j : Nat)
    (v : List (List Nat)) (hne : j ≠ k) : qGet (qSet qs k v) j = qGet qs j := by
  induction qs with
  | nil =>
    simp only [qSet, qGet]
    rw [if_neg (show ¬ k = j from fun h => hne h.symm)]
  | cons h t ih =>
    obtain ⟨k', v'⟩ := h
    by_cases hk : k' = k
    · subst hk
      simp only [qSet, if_pos rfl, qGet]
      rw [if_neg (show ¬ k' = j from fun h => hne h.symm),
        if_neg (show ¬ k' = j from fun h => hne h.symm)]
    · simp only [qSet, if_neg hk, qGet]
      by_cases hj : k' = j
      · rw [if_pos hj, if_pos hj]
      · rw [if_neg hj, if_neg hj, ih]

/-- Re-storing the value a key already holds is the identity. -/
theorem qSet_qGet_eq (qs : List (Nat × List (List Nat))) (k : Nat)
    (q : List (List Nat)) (h : qGet qs k = some q) : qSet qs k q = qs := by
  induction qs with
  | nil => simp [qGet] at h
  | cons hd t ih =>
    obtain ⟨k', v'⟩ := hd
    by_cases hk : k' = k
    · subst hk
      simp only [qGet, if_pos rfl] at h
      simp [qSet, Option.some.inj h]
    · simp only [qGet, if_neg hk] at h
      simp [qSet, hk, ih h]

/-- `qContents` after setting the same key. -/
theorem qContents_qSet_self (qs : List (Nat × List (List Nat))) (k : Nat)
    (v : List (List Nat)) : qContents (qSet qs k v) k = v := by
  simp [qContents, qGet_qSet_self]

/-- `qContents` after setting another key. -/
theorem qContents_qSet_ne (qs : List (Nat × List (List Nat))) (k j : Nat)
    (v : List (List Nat)) (hne : j ≠ k) : qContents (qSet qs k v) j = qContents qs j := by
  simp [qContents, qGet_qSet_ne qs k j v hne]

/-- Overwriting a key twice keeps only the second write. -/
theorem qSet_qSet (qs : List (Nat × List (List Nat))) (k : Nat)
    (v w : List (List Nat)) : qSet (qSet qs k v) k w = qSet qs k w := by
  induction qs with
  | nil => simp [qSet]
  | cons hd t ih =>
    obtain ⟨k', v'⟩ := hd
    by_cases hk : k' = k
    · simp [qSet, hk]
    · simp [qSet, hk, ih]

/-- `_get_response_queue` returns the current contents and stores them
back (creating the empty queue on first use): the state differs only by
the idempotent `qSet`. -/
theorem get_response_queue_eq (st : SessionState) (k : Nat) :
    get_response_queue st k
      = (qContents st.response_queues k,
          { st with response_queues :=
                      qSet st.response_queues k (qContents st.response_queues k) }) := by
  unfold get_response_queue qContents
  cases hq : qGet st.response_queues k with
  | none => simp
  | some q => simp [qSet_qGet_eq st.response_queues k q hq]

/-- Dispatch of a non-error frame appends the payload to the tail of the
queue keyed by its command id. -/
theorem dispatch_packet_ne {st : SessionState} {cid : Nat} {p : List Nat}
    (h : cid ≠ RSP_ERROR) :
    dispatch_packet st cid p
      = { st with response_queues :=
                    qSet st.response_queues cid (qContents st.response_queues cid ++ [p]) } := by
  unfold dispatch_packet
  rw [if_neg h, get_response_queue_eq]
  simp [qSet_qSet]

/-- Dispatch of an `RSP_ERROR` frame appends the payload to the error
queue and touches no per-kind response queue. -/
theorem dispatch_packet_err (st : SessionState) (p : List Nat) :
    dispatch_packet st RSP_ERROR p
      = { st with error_queue := st.error_queue ++ [p] } := by
  simp [dispatch_packet]

/-! ## Claim theorems: routing, lifecycle, guard, non-positive timeout -/

/-- C5: the receive-loop router pushes an `RSP_ERROR` (0xFF) frame's
payload to the single error queue and no response queue; any other frame's
payload goes to the tail of the queue keyed by its command id (created
lazily on first use), leaving the error queue and every other kind's queue
unchanged; delivery pops from the front of a queue (FIFO), so a pending
request awaiting kind `k1` is unaffected by a frame of a different kind. -/
theorem claim_C5_dispatch_routing (st : SessionState) (cid k1 : Nat) (p : List Nat)
    (hcid : cid ≠ RSP_ERROR) (hne : cid ≠ k1) :
    (dispatch_packet st RSP_ERROR p).error_queue = st.error_queue ++ [p] ∧
    (dispatch_packet st RSP_ERROR p).response_queues = st.response_queues ∧
    qContents (dispatch_packet st cid p).response_queues cid
      = qContents st.response_queues cid ++ [p] ∧
    (dispatch_packet st cid p).error_queue = st.error_queue ∧
    qContents (dispatch_packet st cid p).response_queues k1
      = qContents st.response_queues k1 ∧
    (qGet st.response_queues cid = none →
      qGet (dispatch_packet st cid p).response_queues cid = some [p]) ∧
    (∀ (st2 : SessionState) (v : List Nat) (vrest : List (List Nat)),
      st2.error_queue = [] →
      qContents st2.response_queues k1 = v :: vrest →
      tryResolve st2 k1 = some (okOutcome v,
        { st2 with response_queues := qSet st2.response_queues k1 vrest })) := by
  refine ⟨?_, ?_, ?_, ?_, ?_, ?_, ?_⟩
  · rw [dispatch_packet_err]
  · rw [dispatch_packet_err]
  · rw [dispatch_packet_ne hcid]
    exact qContents_qSet_self _ _ _
  · rw [dispatch_packet_ne hcid]
  · rw [dispatch_packet_ne hcid]
    exact qContents_qSet_ne _ _ _ _ (fun h => hne h.symm)
  · intro hnone
    rw [dispatch_packet_ne hcid]
    have : qContents st.response_queues cid = [] := by simp [qContents, hnone]
    rw [this] at *
    simpa using qGet_qSet_self st.response_queues cid ([] ++ [p])
  · intro st2 v vrest herr hq
    unfold tryResolve
    rw [herr, hq]

/-- Witness for C5: a `GET_STATUS` response frame routed into an empty
session state. -/
theorem claim_C5_dispatch_routing_witness :
    (dispatch_packet ⟨some 0, [], true, false, [], [], []⟩ RSP_ERROR [49]).error_queue
        = [] ++ [[49]] ∧
    (dispatch_packet ⟨some 0, [], true, false, [], [], []⟩ RSP_ERROR [49]).response_queues
        = [] ∧
    qContents (dispatch_packet ⟨some 0, [], true, false, [], [], []⟩ 144 [49]).response_queues
        144 = [] ++ [[49]] ∧
    (dispatch_packet ⟨some 0, [], true, false, [], [], []⟩ 144 [49]).error_queue = [] ∧
    qContents (dispatch_packet ⟨some 0, [], true, false, [], [], []⟩ 144 [49]).response_queues
        129 = qContents ([] : List (Nat × List (List Nat))) 129 ∧
    (qGet ([] : List (Nat × List (List Nat))) 144 = none →
      qGet (dispatch_packet ⟨some 0, [], true, false, [], [], []⟩ 144 [49]).response_queues
        144 = some [[49]]) ∧
    (∀ (st2 : SessionState) (v : List Nat) (vrest : List (List Nat)),
      st2.error_queue = [] →
      qContents st2.response_queues 129 = v :: vrest →
      tryResolve st2 129 = some (okOutcome v,
        { st2 with response_queues := qSet st2.response_queues 129 vrest })) :=
  claim_C5_dispatch_routing ⟨some 0, [], true, false, [], [], []⟩ 144 129 [49]
    (by decide) (by decide)

/-- C8: `attach(transport)` binds the new transport, resets the receive
buffer, resets every per-kind response queue and the error queue to empty
(discarding anything queued under a prior connection), sets Connected and
clears Ready; `detach()` clears Connected and Ready. -/
theorem claim_C8_attach_detach (st : SessionState) (ws : Nat) :
    (attach st ws).websocket = some ws ∧
    (attach st ws).rx_buffer = [] ∧
    (attach st ws).response_queues = [] ∧
    (∀ k, qContents (attach st ws).response_queues k = []) ∧
    (attach st ws).error_queue = [] ∧
    (attach st ws).connected_event = true ∧
    (attach st ws).ready_event = false ∧
    (detach st).connected_event = false ∧
    (detach st).ready_event = false :=
  ⟨rfl, rfl, rfl, fun _ => rfl, rfl, rfl, rfl, rfl, rfl⟩

/-- C6: a `request` issued with no attached transport fails with
`NotConnected` immediately: nothing is sent, the state (buffer, queues,
send trace) is returned unchanged, and no arrival is consumed. -/
theorem claim_C6_request_not_connected (st : SessionState)
    (command_id expected_response_id : Nat) (payload : List Nat)
    (timeout_seconds now : ℚ) (arrivals : List (ℚ × List Nat))
    (hws : st.websocket = none) :
    request st command_id expected_response_id payload timeout_seconds now arrivals
      = (.notConnected, now, st, arrivals) := by
  simp [request, hws]

/-- Witness for C6: a fresh detached session. -/
theorem claim_C6_request_not_connected_witness :
    request ⟨none, [], false, false, [], [], []⟩ 1 129 [] 10 0 []
      = (.notConnected, 0, ⟨none, [], false, false, [], [], []⟩, []) :=
  claim_C6_request_not_connected ⟨none, [], false, false, [], [], []⟩ 1 129 [] 10 0 [] rfl

/-- C10: a `request` in the Connected state with `timeout_seconds ≤ 0`
sends the request frame and then raises `Timeout` without entering the
wait loop: no item is consumed from the expected-response queue or the
error queue (even if a matching item is already queued), the buffer is
untouched, and no arrival is consumed. -/
theorem claim_C10_nonpositive_timeout (st : SessionState) (w : Nat)
    (command_id expected_response_id : Nat) (payload : List Nat)
    (timeout_seconds now : ℚ) (arrivals : List (ℚ × List Nat))
    (hws : st.websocket = some w) (hT : timeout_seconds ≤ 0) :
    (request st command_id expected_response_id payload timeout_seconds now arrivals).1
      = .timeout ∧
    (request st command_id expected_response_id payload timeout_seconds now arrivals).2.1
      = now ∧
    (request st command_id expected_response_id payload timeout_seconds now
      arrivals).2.2.1.sent = st.sent ++ [build_packet command_id payload] ∧
    (request st command_id expected_response_id payload timeout_seconds now
      arrivals).2.2.1.error_queue = st.error_queue ∧
    (∀ k, qContents (request st command_id expected_response_id payload timeout_seconds now
      arrivals).2.2.1.response_queues k = qContents st.response_queues k) ∧
    (request st command_id expected_response_id payload timeout_seconds now
      arrivals).2.2.1.rx_buffer = st.rx_buffer ∧
    (request st command_id expected_response_id payload timeout_seconds now
      arrivals).2.2.2 = arrivals := by
  have hcond : ¬ now < now + timeout_seconds := by
    intro hlt
    have : (0 : ℚ) < timeout_seconds := by linarith
    linarith
  rw [request]
  rw [if_neg (by simp [hws] : ¬ st.websocket = none)]
  simp only [get_response_queue_eq, if_neg hcond]
  refine ⟨trivial, trivial, trivial, trivial, ?_, trivial, trivial⟩
  intro k
  by_cases hk : k = expected_response_id
  · subst hk
    exact qContents_qSet_self _ _ _
  · exact qContents_qSet_ne _ _ _ _ hk

/-- Witness for C10: a connected session with a matching `RSP_GET_STATUS`
response already queued; the zero-timeout request still times out and
leaves the queued item in place. -/
theorem claim_C10_nonpositive_timeout_witness :
    (request ⟨some 0, [], true, false, [(144, [[49]])], [], []⟩ 16 144 [] 0 5 []).1
      = .timeout ∧
    (request ⟨some 0, [], true, false, [(144, [[49]])], [], []⟩ 16 144 [] 0 5 []).2.1 = 5 ∧
    (request ⟨some 0, [], true, false, [(144, [[49]])], [], []⟩ 16 144 [] 0 5 []).2.2.1.sent
      = [] ++ [build_packet 16 []] ∧
    (request ⟨some 0, [], true, false, [(144, [[49]])], [], []⟩ 16 144 []
      0 5 []).2.2.1.error_queue = [] ∧
    (∀ k, qContents (request ⟨some 0, [], true, false, [(144, [[49]])], [], []⟩ 16 144 []
      0 5 []).2.2.1.response_queues k = qContents [(144, [[49]])] k) ∧
    (request ⟨some 0, [], true, false, [(144, [[49]])], [], []⟩ 16 144 []
      0 5 []).2.2.1.rx_buffer = [] ∧
    (request ⟨some 0, [], true, false, [(144, [[49]])], [], []⟩ 16 144 [] 0 5 []).2.2.2
      = [] :=
  claim_C10_nonpositive_timeout ⟨some 0, [], true, false, [(144, [[49]])], [], []⟩ 0
    16 144 [] 0 5 [] rfl le_rfl

/-! ## The bounded-retry handshake (`hello_with_retry`)

`hello_with_retry` calls `session.request(CMD_HELLO, RSP_HELLO,
timeout_seconds=timeouts[min(i, 2)])` once per attempt, catches any
exception, sleeps 1 s after each failed attempt, and raises an aggregated
`RuntimeError` once `max_attempts` attempts have all failed.  The embedding
abstracts each attempt's `request` result as an oracle
`Nat → ReqOutcome` indexed by the attempt number (a `request` in the
Connected state sends exactly one frame before any other outcome, and a
`NotConnected` failure sends none — see `request` and
`claim_C6_request_not_connected`). -/

/-- The per-attempt timeout schedule `[10.0, 20.0, 30.0]`. -/
def hello_timeouts : List ℚ := [10, 20, 30]

/-- `timeouts[min(attempt_index, len(timeouts) - 1)]`. -/
def timeout_for (attempt_index : Nat) : ℚ :=
  hello_timeouts.getD (min attempt_index (hello_timeouts.length - 1)) 0

/-- Did an attempt's outcome raise (anything but a successful return)? -/
def attemptFailed : ReqOutcome → Bool
  | .success _ => false
  | _ => true

/-- Request frames sent by one attempt: `NotConnected` raises before
`websocket.send`, every other outcome occurs after it. -/
def framesForAttempt : ReqOutcome → Nat
  | .notConnected => 0
  | _ => 1

/-- Observable trace of a `hello_with_retry` run: the returned value (or
`none` for the terminal aggregated failure), the number of attempts
performed, the timeout passed to each attempt in order, the number of
request frames sent, and the number of 1 s sleeps taken. -/
structure HelloTrace where
  result : Option Json
  attempts : Nat
  timeoutsUsed : List ℚ
  framesSent : Nat
  sleeps : Nat

/-- The retry loop from attempt `i` with `k` attempts remaining. -/
def hello_go (oracle : Nat → ReqOutcome) : Nat → Nat → HelloTrace
  | _, 0 => { result := none, attempts := 0, timeoutsUsed := [], framesSent := 0, sleeps := 0 }
  | i, k + 1 =>
    match oracle i with
    | .success v =>
      { result := some v
        attempts := 1
        timeoutsUsed := [timeout_for i]
        framesSent := 1
        sleeps := 0 }
    | out =>
      let rest := hello_go oracle (i + 1) k
      { result := rest.result
        attempts := rest.attempts + 1
        timeoutsUsed := timeout_for i :: rest.timeoutsUsed
        framesSent := framesForAttempt out + rest.framesSent
        sleeps := rest.sleeps + 1 }

/-- `hello_with_retry(session, max_attempts)`. -/
def hello_with_retry (oracle : Nat → ReqOutcome) (max_attempts : Nat := 3) : HelloTrace :=
  hello_go oracle 0 max_attempts

/-- If the run ends in the aggregated failure, every attempt was performed
and failed. -/
theorem hello_go_failure (oracle : Nat → ReqOutcome) :
    ∀ (k i : Nat), (hello_go oracle i k).result = none →
      (hello_go oracle i k).attempts = k ∧
      ∀ j, j < k → attemptFailed (oracle (i + j)) = true := by
  intro k
  induction k with
  | zero =>
    intro i _
    exact ⟨rfl, fun j hj => absurd hj (Nat.not_lt_zero j)⟩
  | succ k ih =>
    intro i hres
    cases hor : oracle i with
    | success v =>
      rw [hello_go, hor] at hres
      simp at hres
    | notConnected =>
      rw [hello_go, hor] at hres ⊢
      obtain ⟨ha, hf⟩ := ih (i + 1) hres
      refine ⟨by simp [ha], ?_⟩
      intro j hj
      cases j with
      | zero => simp [hor, attemptFailed]
      | succ j =>
        have := hf j (by omega)
        simpa [Nat.add_assoc, Nat.add_comm 1 j] using this
    | timeout =>
      rw [hello_go, hor] at hres ⊢
      obtain ⟨ha, hf⟩ := ih (i + 1) hres
      refine ⟨by simp [ha], ?_⟩
      intro j hj
      cases j with
      | zero => simp [hor, attemptFailed]
      | succ j =>
        have := hf j (by omega)
        simpa [Nat.add_assoc, Nat.add_comm 1 j] using this
    | remoteError e =>
      rw [hello_go, hor] at hres ⊢
      obtain ⟨ha, hf⟩ := ih (i + 1) hres
      refine ⟨by simp [ha], ?_⟩
      intro j hj
      cases j with
      | zero => simp [hor, attemptFailed]
      | succ j =>
        have := hf j (by omega)
        simpa [Nat.add_assoc, Nat.add_comm 1 j] using this
    | decodeError =>
      rw [hello_go, hor] at hres ⊢
      obtain ⟨ha, hf⟩ := ih (i + 1) hres
      refine ⟨by simp [ha], ?_⟩
      intro j hj
      cases j with
      | zero => simp [hor, attemptFailed]
      | succ j =>
        have := hf j (by omega)
        simpa [Nat.add_assoc, Nat.add_comm 1 j] using this

/-- C7: `hello_with_retry` uses the per-attempt timeout schedule
`[10, 20, 30]` seconds with the last value reused beyond the schedule
length, sleeps 1 s between failed attempts, and raises the terminal
aggregated failure only after all `max_attempts` attempts fail; with two
timeout failures followed by a success it performs exactly 3 attempts
(sending exactly 3 request frames, sleeping twice), the third with the
30 s timeout, and returns the successful value. -/
theorem claim_C7_hello_with_retry (oracle : Nat → ReqOutcome) (v : Json)
    (h0 : oracle 0 = .timeout) (h1 : oracle 1 = .timeout)
    (h2 : oracle 2 = .success v) :
    hello_with_retry oracle 3
      = { result := some v
          attempts := 3
          timeoutsUsed := [10, 20, 30]
          framesSent := 3
          sleeps := 2 } ∧
    (∀ i, 2 ≤ i → timeout_for i = 30) ∧
    timeout_for 0 = 10 ∧ timeout_for 1 = 20 ∧
    (∀ (oracle' : Nat → ReqOutcome) (n : Nat),
      (hello_with_retry oracle' n).result = none →
        (hello_with_retry oracle' n).attempts = n ∧
        ∀ j, j < n → attemptFailed (oracle' j) = true) := by
  refine ⟨?_, ?_, rfl, rfl, ?_⟩
  · rw [hello_with_retry, hello_go, h0, hello_go, h1, hello_go, h2]
    simp [timeout_for, hello_timeouts, framesForAttempt]
  · intro i hi
    rw [timeout_for, hello_timeouts]
    have : min i (([10, 20, 30] : List ℚ).length - 1) = 2 := by
      simp only [List.length_cons, List.length_nil]
      omega
    rw [this]
    rfl
  · intro oracle' n hres
    have h := hello_go_failure oracle' n 0 hres
    exact ⟨h.1, fun j hj => by simpa using h.2 j hj⟩

/-- Witness for C7: the concrete oracle failing twice then succeeding with
`null`. -/
theorem claim_C7_hello_with_retry_witness :
    hello_with_retry
      (fun i => if i = 0 then .timeout else if i = 1 then .timeout else .success .null) 3
      = { result := some .null
          attempts := 3
          timeoutsUsed := [10, 20, 30]
          framesSent := 3
          sleeps := 2 } :=
  (claim_C7_hello_with_retry
    (fun i => if i = 0 then .timeout else if i = 1 then .timeout else .success .null)
    .null rfl rfl rfl).1

/-! ## Evaluation lemmas for the race engine -/

/-- `tryResolve` finds nothing when both queues are empty. -/
theorem tryResolve_none (st : SessionState) (K : Nat)
    (h1 : st.error_queue = []) (h2 : qContents st.response_queues K = []) :
    tryResolve st K = none := by
  unfold tryResolve
  rw [h1, h2]

/-- `tryResolve` pops the error queue when it is non-empty and the
expected queue is empty. -/
theorem tryResolve_err (st : SessionState) (K : Nat) (e : List Nat)
    (erest : List (List Nat)) (h1 : st.error_queue = e :: erest)
    (h2 : qContents st.response_queues K = []) :
    tryResolve st K = some (errOutcome e, { st with error_queue := erest }) := by
  unfold tryResolve
  rw [h1, h2]

/-- `tryResolve` pops the head of the expected queue when the error queue
is empty. -/
theorem tryResolve_ok (st : SessionState) (K : Nat) (v : List Nat)
    (vrest : List (List Nat)) (h1 : st.error_queue = [])
    (h2 : qContents st.response_queues K = v :: vrest) :
    tryResolve st K = some (okOutcome v,
      { st with response_queues := qSet st.response_queues K vrest }) := by
  unfold tryResolve
  rw [h1, h2]

/-- `raceOnce` on immediately resolvable queues. -/
theorem raceOnce_resolved (st : SessionState) (K : Nat) (now wEnd : ℚ)
    (A : List (ℚ × List Nat)) (out : ReqOutcome) (st3 : SessionState)
    (h : tryResolve st K = some (out, st3)) :
    raceOnce st K now wEnd A = (out, now, st3, A) := by
  unfold raceOnce
  rw [h]

/-- `raceOnce` with nothing queued scans the arrivals. -/
theorem raceOnce_scan (st : SessionState) (K : Nat) (now wEnd : ℚ)
    (A : List (ℚ × List Nat)) (h : tryResolve st K = none) :
    raceOnce st K now wEnd A
      = match scanArrivals K wEnd st A with
        | (some (out, t), st3, rest) => (out, t, st3, rest)
        | (none, st3, rest) => (.timeout, wEnd, st3, rest) := by
  unfold raceOnce
  rw [h]

/-- An in-window arrival that resolves the race. -/
theorem scanArrivals_cons_resolve (K : Nat) (wEnd t : ℚ) (st : SessionState)
    (m : List Nat) (rest : List (ℚ × List Nat)) (out : ReqOutcome)
    (st' : SessionState) (hw : t ≤ wEnd)
    (h : tryResolve (handle_binary st m) K = some (out, st')) :
    scanArrivals K wEnd st ((t, m) :: rest) = (some (out, t), st', rest) := by
  show (if t ≤ wEnd then
      match tryResolve (handle_binary st m) K with
      | some (out, st'') => (some (out, t), st'', rest)
      | none => scanArrivals K wEnd (handle_binary st m) rest
    else (none, st, (t, m) :: rest)) = (some (out, t), st', rest)
  rw [if_pos hw, h]

/-- An in-window arrival that fills only other queues: the scan goes on. -/
theorem scanArrivals_cons_continue (K : Nat) (wEnd t : ℚ) (st : SessionState)
    (m : List Nat) (rest : List (ℚ × List Nat)) (hw : t ≤ wEnd)
    (h : tryResolve (handle_binary st m) K = none) :
    scanArrivals K wEnd st ((t, m) :: rest)
      = scanArrivals K wEnd (handle_binary st m) rest := by
  show (if t ≤ wEnd then
      match tryResolve (handle_binary st m) K with
      | some (out, st'') => (some (out, t), st'', rest)
      | none => scanArrivals K wEnd (handle_binary st m) rest
    else (none, st, (t, m) :: rest)) = scanArrivals K wEnd (handle_binary st m) rest
  rw [if_pos hw, h]

/-- An arrival after the window end: the wait expires with it unconsumed. -/
theorem scanArrivals_cons_late (K : Nat) (wEnd t : ℚ) (st : SessionState)
    (m : List Nat) (rest : List (ℚ × List Nat)) (hw : ¬ t ≤ wEnd) :
    scanArrivals K wEnd st ((t, m) :: rest) = (none, st, (t, m) :: rest) := by
  show (if t ≤ wEnd then
      match tryResolve (handle_binary st m) K with
      | some (out, st'') => (some (out, t), st'', rest)
      | none => scanArrivals K wEnd (handle_binary st m) rest
    else (none, st, (t, m) :: rest)) = (none, st, (t, m) :: rest)
  rw [if_neg hw]

/-- No arrivals: the wait expires. -/
theorem scanArrivals_nil (K : Nat) (wEnd : ℚ) (st : SessionState) :
    scanArrivals K wEnd st [] = (none, st, []) := rfl

/-- `handle_binary` on an empty retained buffer and a message that parses
to exactly `pkts` with nothing left over: clear the buffer and dispatch
the frames in order. -/
theorem handle_binary_frames (st : SessionState) (m : List Nat)
    (pkts : List (Nat × List Nat)) (hbuf : st.rx_buffer = [])
    (hp : parse_packets m = (pkts, [])) :
    handle_binary st m
      = pkts.foldl (fun s f => dispatch_packet s f.1 f.2) { st with rx_buffer := [] } := by
  unfold handle_binary
  rw [hbuf, List.nil_append, hp]

/-- A connected `request` with a positive timeout is the send, the lazy
queue creation, and one race round with window end
`now + max(0.1, end_time - now)`. -/
theorem request_connected (st : SessionState) (w : Nat) (command_id K : Nat)
    (pl : List Nat) (T now : ℚ) (A : List (ℚ × List Nat))
    (hws : st.websocket = some w) (hT : 0 < T) :
    request st command_id K pl T now A
      = raceOnce
          { st with
            sent := st.sent ++ [build_packet command_id pl]
            response_queues := qSet st.response_queues K (qContents st.response_queues K) }
          K now (now + max (1 / 10 : ℚ) (now + T - now)) A := by
  rw [request, if_neg (by simp [hws]), if_pos (by linarith : now < now + T)]
  rw [get_response_queue_eq]

/-! ## Claim theorems: the request race -/

/-- C3: an ERROR frame (kind 0xFF) delivered while a request is pending
(both queues empty, the frame arriving within the deadline) makes that
request fail with `RemoteError` carrying the decoded JSON payload: the
request returns at the arrival time with the error consumed, the pending
kind's queue still empty and the send trace extended by exactly the
request frame; the error frame is pushed to no per-kind response queue
(so it cannot satisfy a request awaiting a non-error kind), and the
response-queue contents seen by any waiter are unchanged. -/
theorem claim_C3_error_frame_remote_error (st : SessionState) (w : Nat)
    (command_id K : Nat) (pl e : List Nat) (j : Json) (T now t : ℚ)
    (hws : st.websocket = some w) (hbuf : st.rx_buffer = [])
    (herr : st.error_queue = []) (hK : qContents st.response_queues K = [])
    (hKne : K ≠ RSP_ERROR) (hT : 0 < T) (ht1 : now < t) (ht2 : t ≤ now + T)
    (he : payload_to_json e = some j) (hlen : e.length ≤ 65534)
    (hbytes : ∀ b ∈ e, b < 256) :
    request st command_id K pl T now [(t, build_packet RSP_ERROR e)]
      = (.remoteError j, t,
          { st with
            sent := st.sent ++ [build_packet command_id pl]
            response_queues := qSet st.response_queues K []
            rx_buffer := []
            error_queue := [] }, []) ∧
    (∀ (st' : SessionState) (p : List Nat),
      (dispatch_packet st' RSP_ERROR p).response_queues = st'.response_queues) ∧
    (∀ k, qContents (qSet st.response_queues K []) k = qContents st.response_queues k) := by
  have hparse : parse_packets (build_packet RSP_ERROR e) = ([(RSP_ERROR, e)], []) := by
    have h := parse_packets_encodeAll [(RSP_ERROR, e)] []
      (by
        intro f hf
        simp only [List.mem_singleton] at hf
        subst hf
        exact ⟨by norm_num [RSP_ERROR], hlen, hbytes⟩)
    rw [parse_packets_nil] at h
    simpa [encodeAll] using h
  refine ⟨?_, fun st' p => by rw [dispatch_packet_err], fun k => ?_⟩
  · rw [request_connected st w command_id K pl T now _ hws hT, hK]
    rw [raceOnce_scan _ _ _ _ _
      (tryResolve_none _ _ (by simp [herr]) (by simp [qContents_qSet_self]))]
    have htw : t ≤ now + max (1 / 10 : ℚ) (now + T - now) := by
      have hTT : now + T - now = T := by ring
      rw [hTT]
      exact le_trans ht2 (add_le_add_left (le_max_right _ _) now)
    have hhb : handle_binary
        { st with
          sent := st.sent ++ [build_packet command_id pl]
          response_queues := qSet st.response_queues K [] }
        (build_packet RSP_ERROR e)
        = { st with
            sent := st.sent ++ [build_packet command_id pl]
            response_queues := qSet st.response_queues K []
            rx_buffer := []
            error_queue := [e] } := by
      rw [handle_binary_frames _ _ _ (by simp [hbuf]) hparse]
      simp only [List.foldl]
      rw [dispatch_packet_err]
      simp [herr]
    have htr : tryResolve
        { st with
          sent := st.sent ++ [build_packet command_id pl]
          response_queues := qSet st.response_queues K []
          rx_buffer := []
          error_queue := [e] } K
        = some (.remoteError j,
            { st with
              sent := st.sent ++ [build_packet command_id pl]
              response_queues := qSet st.response_queues K []
              rx_buffer := []
              error_queue := [] }) := by
      have h := tryResolve_err
        { st with
          sent := st.sent ++ [build_packet command_id pl]
          response_queues := qSet st.response_queues K []
          rx_buffer := []
          error_queue := [e] } K e [] rfl (by simp [qContents_qSet_self])
      rw [show errOutcome e = .remoteError j from by unfold errOutcome; rw [he]] at h
      exact h
    rw [scanArrivals_cons_resolve _ _ _ _ _ _ _ _ htw (by rw [hhb]; exact htr)]
  · by_cases hk : k = K
    · subst hk
      rw [qContents_qSet_self, hK]
    · exact qContents_qSet_ne _ _ _ _ hk

/-- Witness for C3: a fresh connected session; a `GET_STATUS` request
pending with a 10 s timeout receives the ERROR frame `{}` at `t = 5` and
fails with `RemoteError` carrying the empty object. -/
theorem claim_C3_error_frame_remote_error_witness :
    request ⟨some 0, [], true, false, [], [], []⟩ 16 144 [] 10 0
        [(5, build_packet RSP_ERROR [123, 125])]
      = (.remoteError (.obj []), 5,
          ⟨some 0, [], true, false, [(144, [])], [], [build_packet 16 []]⟩, []) :=
  (claim_C3_error_frame_remote_error ⟨some 0, [], true, false, [], [], []⟩ 0
    16 144 [] [123, 125] (.obj []) 10 0 5 rfl rfl rfl rfl (by decide) (by decide)
    (by decide) (by norm_num) rfl (by decide) (by decide)).1

/-- Counterexample to C4 as stated: with `timeout_seconds = 0.05` the lone
race window is clamped to `max(0.1, 0.05) = 0.1` seconds, so an expected
response arriving at `t = 0.07` — after the `now + 0.05` deadline, hence
with no item arriving within `timeoutSeconds` — is still delivered to the
current call, which returns success instead of failing with `Timeout`. -/
theorem claim_C4_counterexample :
    ((0 : ℚ) + 1 / 20 < 7 / 100) ∧
    (request ⟨some 0, [], true, false, [], [], []⟩ 16 144 [] (1 / 20) 0
        [(7 / 100, build_packet 144 [49])]).1
      = .success (.num 1 [] 0) := by
  refine ⟨by norm_num, ?_⟩
  rw [request_connected ⟨some 0, [], true, false, [], [], []⟩ 0 16 144 [] (1 / 20) 0 _
    rfl (by norm_num)]
  rw [raceOnce_scan _ _ _ _ _ (tryResolve_none _ _ (by rfl) (by rfl))]
  have harr : (7 / 100 : ℚ) ≤ 0 + max (1 / 10 : ℚ) (0 + 1 / 20 - 0) := by
    rw [show ((0 : ℚ) + 1 / 20 - 0) = 1 / 20 by ring]
    rw [max_eq_left (by norm_num : (1 / 20 : ℚ) ≤ 1 / 10)]
    norm_num
  rw [scanArrivals_cons_resolve _ _ _ _ _ _ _ _ harr
    (rfl : tryResolve
      (handle_binary
        { websocket := some 0, rx_buffer := [], connected_event := true
          ready_event := false, response_queues := qSet [] 144 (qContents [] 144)
          error_queue := [], sent := [] ++ [build_packet 16 []] }
        (build_packet 144 [49])) 144
      = some (.success (.num 1 [] 0),
          ⟨some 0, [], true, false, [(144, [])], [], [build_packet 16 []]⟩))]
  rfl

/-- C4 (amended): the race window is `max(timeoutSeconds, 0.1)` seconds —
for a request in the Connected state for which neither an expected-kind
item nor an error item arrives within that window, the call fails with
`Timeout` at or after the deadline `now + timeoutSeconds`, consuming
nothing; response frames of that kind arriving after the window are
still queued in arrival order and are delivered, front first, to the next
requests of that kind — FIFO preserved across the timeout. -/
theorem claim_C4_timeout_amended (st : SessionState) (w : Nat)
    (command_id cmd2 cmd3 K : Nat) (pl p1 p2 : List Nat) (j1 j2 : Json)
    (T T2 T3 now now2 now3 t1 : ℚ)
    (hws : st.websocket = some w) (hbuf : st.rx_buffer = [])
    (herr : st.error_queue = []) (hK : qContents st.response_queues K = [])
    (hKne : K ≠ RSP_ERROR) (hKlt : K < 256) (hT : 0 < T)
    (hlate : now + max (1 / 10 : ℚ) T < t1)
    (hp1len : p1.length ≤ 65534) (hp1b : ∀ b ∈ p1, b < 256)
    (hp2len : p2.length ≤ 65534) (hp2b : ∀ b ∈ p2, b < 256)
    (hj1 : payload_to_json p1 = some j1) (hj2 : payload_to_json p2 = some j2)
    (hT2 : 0 < T2) (hT3 : 0 < T3) :
    request st command_id K pl T now [(t1, build_packet K p1 ++ build_packet K p2)]
      = (.timeout, now + max (1 / 10 : ℚ) (now + T - now),
          { st with
            sent := st.sent ++ [build_packet command_id pl]
            response_queues := qSet st.response_queues K [] },
          [(t1, build_packet K p1 ++ build_packet K p2)]) ∧
    now + T ≤ now + max (1 / 10 : ℚ) (now + T - now) ∧
    handle_binary
        { st with
          sent := st.sent ++ [build_packet command_id pl]
          response_queues := qSet st.response_queues K [] }
        (build_packet K p1 ++ build_packet K p2)
      = { st with
          sent := st.sent ++ [build_packet command_id pl]
          response_queues := qSet st.response_queues K [p1, p2]
          rx_buffer := [] } ∧
    qContents (qSet st.response_queues K [p1, p2]) K = [p1, p2] ∧
    request
        { st with
          sent := st.sent ++ [build_packet command_id pl]
          response_queues := qSet st.response_queues K [p1, p2]
          rx_buffer := [] }
        cmd2 K [] T2 now2 []
      = (.success j1, now2,
          { st with
            sent := (st.sent ++ [build_packet command_id pl]) ++ [build_packet cmd2 []]
            response_queues := qSet st.response_queues K [p2]
            rx_buffer := [] }, []) ∧
    request
        { st with
          sent := (st.sent ++ [build_packet command_id pl]) ++ [build_packet cmd2 []]
          response_queues := qSet st.response_queues K [p2]
          rx_buffer := [] }
        cmd3 K [] T3 now3 []
      = (.success j2, now3,
          { st with
            sent := ((st.sent ++ [build_packet command_id pl]) ++ [build_packet cmd2 []])
              ++ [build_packet cmd3 []]
            response_queues := qSet st.response_queues K []
            rx_buffer := [] }, []) := by
  have hparse2 : parse_packets (build_packet K p1 ++ build_packet K p2)
      = ([(K, p1), (K, p2)], []) := by
    have h := parse_packets_encodeAll [(K, p1), (K, p2)] []
      (by
        intro f hf
        simp only [List.mem_cons, List.mem_singleton] at hf
        rcases hf with hf | hf | hf
        · subst hf; exact ⟨hKlt, hp1len, hp1b⟩
        · subst hf; exact ⟨hKlt, hp2len, hp2b⟩
        · cases hf)
    rw [parse_packets_nil] at h
    simpa [encodeAll] using h
  refine ⟨?_, ?_, ?_, ?_, ?_, ?_⟩
  · rw [request_connected st w command_id K pl T now _ hws hT, hK]
    rw [raceOnce_scan _ _ _ _ _
      (tryResolve_none _ _ (by simp [herr]) (by simp [qContents_qSet_self]))]
    have hlate' : ¬ t1 ≤ now + max (1 / 10 : ℚ) (now + T - now) := by
      rw [show (now + T - now) = T by ring]
      linarith
    rw [scanArrivals_cons_late _ _ _ _ _ _ hlate']
  · rw [show (now + T - now) = T by ring]
    exact add_le_add_left (le_max_right _ _) now
  · rw [handle_binary_frames _ _ _ (by simp [hbuf]) hparse2]
    simp only [List.foldl]
    simp only [dispatch_packet_ne hKne, qContents_qSet_self, qSet_qSet,
      List.nil_append, List.cons_append]
  · exact qContents_qSet_self _ _ _
  · rw [request_connected _ w cmd2 K [] T2 now2 [] (by simp [hws]) hT2]
    simp only [qContents_qSet_self, qSet_qSet]
    rw [raceOnce_resolved _ _ _ _ _ _ _
      (tryResolve_ok _ _ p1 [p2] (by simp [herr]) (by simp [qContents_qSet_self]))]
    rw [show okOutcome p1 = .success j1 from by unfold okOutcome; rw [hj1]]
    simp only [qSet_qSet]
  · rw [request_connected _ w cmd3 K [] T3 now3 [] (by simp [hws]) hT3]
    simp only [qContents_qSet_self, qSet_qSet]
    rw [raceOnce_resolved _ _ _ _ _ _ _
      (tryResolve_ok _ _ p2 [] (by simp [herr]) (by simp [qContents_qSet_self]))]
    rw [show okOutcome p2 = .success j2 from by unfold okOutcome; rw [hj2]]
    simp only [qSet_qSet]

/-- Witness for the amended C4: a 10 s `GET_STATUS` request with two
matching responses arriving (in one message) at `t = 11`, after the
window: the call times out at `0 + max(0.1, 10)` and the responses stay
queued for later requests. -/
theorem claim_C4_timeout_amended_witness :
    request ⟨some 0, [], true, false, [], [], []⟩ 16 144 [] 10 0
        [(11, build_packet 144 [49] ++ build_packet 144 [50])]
      = (.timeout, 0 + max (1 / 10 : ℚ) (0 + 10 - 0),
          ⟨some 0, [], true, false, [(144, [])], [], [build_packet 16 []]⟩,
          [(11, build_packet 144 [49] ++ build_packet 144 [50])]) :=
  (claim_C4_timeout_amended ⟨some 0, [], true, false, [], [], []⟩ 0 16 16 16 144
    [] [49] [50] (.num 1 [] 0) (.num 2 [] 0) 10 10 10 0 20 30 11
    rfl rfl rfl rfl (by decide) (by decide) (by decide)
    (by rw [max_eq_right (by norm_num : (1 / 10 : ℚ) ≤ 10)]; norm_num)
    (by decide) (by decide) (by decide) (by decide) rfl rfl
    (by decide) (by decide)).1
